import Mathlib

/-!
Verification of the benchmark harness of the Sentiment-Analysis repository
(`benchmark/benchmark.py` and `benchmark/benchmark_ui.py`).

The harness is embedded shallowly:
* Python strings are `String`; a value that may be Python `None` is an `Option`.
* `str.strip()` / `str.lower()` become `pyStrip` / `pyLower` on `List Char`
  (ASCII behaviour, which is what the SST-2 labels exercise).
* Latencies and confidence scores (Python floats) are embedded as `ℚ`;
  `time.perf_counter()` readings are supplied by the environment through the
  `Classifier.dur` field, so timing is just data.
* Code that can raise runs in `Except String`; an uncaught Python exception is
  an `Except.error` carrying the message.
* The opaque Hugging-Face pipeline is a `Classifier`: `run text i` is the
  result of the i-th call `clf(text)[0]` for a given text, `dur text i` the
  measured duration of that call in milliseconds.
-/

/-- Code points treated as whitespace by Python `str.strip()` (the ASCII
whitespace characters together with NEL and NBSP; the sample texts and model
labels only ever contain the plain space). -/
def pyWhitespace : List ℕ := [32, 9, 10, 13, 11, 12, 28, 29, 30, 31, 133, 160]

/-- Whether a character is stripped by Python `str.strip()`. -/
def pyIsSpace (c : Char) : Bool := c.toNat ∈ pyWhitespace

/-- Python `s.strip()`: remove leading and trailing whitespace. -/
def pyStrip (l : List Char) : List Char :=
  ((l.dropWhile pyIsSpace).reverse.dropWhile pyIsSpace).reverse

/-- Python `s.lower()` (ASCII range, as `Char.toLower`). -/
def pyLower (l : List Char) : List Char := l.map Char.toLower

/-- The canonical "positive" raw-label variants of `normalize_label`. -/
def positiveVariants : List String := ["positive", "pos", "label_1", "1"]

/-- The canonical "negative" raw-label variants of `normalize_label`. -/
def negativeVariants : List String := ["negative", "neg", "label_0", "0"]

/-- benchmark.py `normalize_label`: `None` maps to "unknown"; otherwise the
label is stripped and lowercased, mapped through the variant tables, "neutral"
collapses to "negative", and anything else passes through. -/
def normalize_label (raw_label : Option String) : String :=
  match raw_label with
  | none => "unknown"
  | some s =>
    let t : String := ⟨pyLower (pyStrip s.data)⟩
    if t ∈ positiveVariants then "positive"
    else if t ∈ negativeVariants then "negative"
    else if t = "neutral" then "negative"
    else t

/-- benchmark_ui.py `_normalize`: `(label or "")` is stripped and lowercased;
the same two variant tables are consulted, and every other value (neutral,
unknown strings, the empty string) becomes "negative". -/
def ui_normalize (label : Option String) : String :=
  let t : String := ⟨pyLower (pyStrip (label.getD "").data)⟩
  if t ∈ positiveVariants then "positive"
  else if t ∈ negativeVariants then "negative"
  else "negative"

/-- Python `statistics.mean`: raises `StatisticsError` on an empty sequence,
otherwise the arithmetic mean. -/
def pyMean (xs : List ℚ) : Except String ℚ :=
  if xs.length = 0 then .error "StatisticsError: mean requires at least one data point"
  else .ok (xs.foldl (· + ·) 0 / (xs.length : ℚ))

/-- Python builtin `min` on a list: raises `ValueError` on an empty sequence. -/
def pyMin (xs : List ℚ) : Except String ℚ :=
  match xs with
  | [] => .error "ValueError: min arg is an empty sequence"
  | x :: rest => .ok (rest.foldl min x)

/-- Python builtin `max` on a list: raises `ValueError` on an empty sequence. -/
def pyMax (xs : List ℚ) : Except String ℚ :=
  match xs with
  | [] => .error "ValueError: max arg is an empty sequence"
  | x :: rest => .ok (rest.foldl max x)

/-- Python `sorted` on numbers: ascending order. -/
def pySorted (xs : List ℚ) : List ℚ := xs.mergeSort (fun a b => decide (a ≤ b))

/-- Python `statistics.median`: raises on an empty sequence; the middle
element of the sorted data for odd length, the mean of the two middle
elements for even length. -/
def pyMedian (xs : List ℚ) : Except String ℚ :=
  let n := xs.length
  if n = 0 then .error "StatisticsError: no median for empty data"
  else
    let s := pySorted xs
    if n % 2 = 1 then .ok (s.getD (n / 2) 0)
    else .ok ((s.getD (n / 2 - 1) 0 + s.getD (n / 2) 0) / 2)

/-- benchmark.py `p95`: 0.0 on an empty list, otherwise the element of the
ascending sort at index `int(0.95 * (len(vals) - 1))`.  The index is written
with exact arithmetic: for every list length the Python float expression
`int(0.95 * (n - 1))` equals `95 * (n - 1) / 100` in integer arithmetic. -/
def p95 (values : List ℚ) : ℚ :=
  if values.length = 0 then 0
  else
    let vals := pySorted values
    let idx := 95 * (values.length - 1) / 100
    vals.getD idx 0

/-- Decidable equality for `Except`, so that concrete runs of the embedded
harness can be checked by `decide`. -/
instance {ε α : Type _} [DecidableEq ε] [DecidableEq α] : DecidableEq (Except ε α) := fun x y =>
  match x, y with
  | .ok a, .ok b =>
    match decEq a b with
    | .isTrue h => .isTrue (congrArg Except.ok h)
    | .isFalse h => .isFalse (fun hc => h (Except.ok.inj hc))
  | .error a, .error b =>
    match decEq a b with
    | .isTrue h => .isTrue (congrArg Except.error h)
    | .isFalse h => .isFalse (fun hc => h (Except.error.inj hc))
  | .ok _, .error _ => .isFalse (fun hc => Except.noConfusion hc)
  | .error _, .ok _ => .isFalse (fun hc => Except.noConfusion hc)

/-- Decidable equality for the state triple of the sample loop (latencies,
correct counter, prediction list), assembled in stages so instance search
stays small. -/
instance : DecidableEq (List ℚ × ℕ × List (String × String × String × ℚ)) :=
  instDecidableEqProd

/-- A raw prediction dict `{"label": ..., "score": ...}` from the pipeline.
The label is an `Option` because `normalize_label` guards against `None`. -/
structure RawPred where
  label : Option String
  score : ℚ
deriving DecidableEq

/-- One labeled sample of the gold set: `(text, expected)`. -/
structure SampleT where
  text : String
  expected : String
deriving DecidableEq

/-- The opaque classifier for one model.  `run text i` is the outcome of the
i-th inference call `clf(text)[0]` on `text` (the repeats of the timed loop
are numbered 0, 1, ...; the warm-up call is `run "warmup" 0`), and
`dur text i` is the wall-clock duration in milliseconds that
`time.perf_counter()` measures around that call. -/
structure Classifier where
  run : String → ℕ → Except String RawPred
  dur : String → ℕ → ℚ

/-- The metrics dict built by `run_one`. -/
structure Metrics where
  avg_ms : ℚ
  min_ms : ℚ
  max_ms : ℚ
  med_ms : ℚ
  p95_ms : ℚ
  acc : ℚ
  preds : List (String × String × String × ℚ)
  num_samples : ℕ
  runs_per_sample : ℕ
deriving DecidableEq

/-- The inner timed loop of `run_one` for one sample text:
`for _ in range(runs): t0 = ...; out = clf(text)[0]; latencies_ms.append(...)`.
Returns the recorded durations in call order together with the value the
Python variable `out` holds after the loop (`none` when `runs = 0`, since the
loop body then never assigns it). -/
def repeatCalls (c : Classifier) (text : String) : ℕ → Except String (List ℚ × Option RawPred)
  | 0 => .ok ([], none)
  | n + 1 => do
    let (lats, _) ← repeatCalls c text n
    let out ← c.run text n
    .ok (lats ++ [c.dur text n], some out)

/-- The outer loop of `run_one` over the sample set, accumulating the latency
list, the `correct` counter and the `preds` list.  `prev` threads the value
the Python variable `out` holds before the current sample is processed; it is
only consulted when `runs = 0`, and reading `out` when it was never assigned
is Python's `NameError`. -/
def sampleLoop (c : Classifier) (runs : ℕ) :
    List SampleT → Option RawPred → Except String (List ℚ × ℕ × List (String × String × String × ℚ))
  | [], _ => .ok ([], 0, [])
  | s :: rest, prev => do
    let (lats, outOpt) ← repeatCalls c s.text runs
    let cur := match outOpt with
      | some o => some o
      | none => prev
    match cur with
    | none => .error "NameError: name out is not defined"
    | some out => do
      let pred_label := normalize_label out.label
      let conf := out.score
      let (latsRest, correctRest, predsRest) ← sampleLoop c runs rest cur
      .ok (lats ++ latsRest,
           (if pred_label = s.expected then 1 else 0) + correctRest,
           (s.text, s.expected, pred_label, conf) :: predsRest)

/-- benchmark.py `run_one` for an already-constructed pipeline: one unguarded
warm-up call `_ = clf("warmup")`, then the timed loops, then the metrics dict.
The statistics are evaluated in the order they appear in the dict literal, so
the first raising expression determines the error. -/
def run_one (c : Classifier) (samples : List SampleT) (runs : ℕ) : Except String Metrics := do
  let _ ← c.run "warmup" 0
  let (latencies_ms, correct, preds) ← sampleLoop c runs samples none
  let avg ← pyMean latencies_ms
  let mn ← pyMin latencies_ms
  let mx ← pyMax latencies_ms
  let md ← pyMedian latencies_ms
  let n := samples.length
  if n = 0 then .error "ZeroDivisionError: division by zero"
  else
    .ok { avg_ms := avg, min_ms := mn, max_ms := mx, med_ms := md,
          p95_ms := p95 latencies_ms, acc := (correct : ℚ) / (n : ℚ),
          preds := preds, num_samples := n, runs_per_sample := runs }

/-- `run_one` including the `pipeline("sentiment-analysis", model=model_name,
device=-1)` construction step, which can itself raise; `build` models the
pipeline constructor. -/
def run_one_of (build : String → Except String Classifier) (samples : List SampleT)
    (runs : ℕ) (model_name : String) : Except String Metrics := do
  let c ← build model_name
  run_one c samples runs

/-- The outcome of `main`: the `all_results` list (model id, pretty name,
metrics) and the failures printed by the `except` branch (model id, error
message).  `mainRun` is a total function, so no exception escapes the run. -/
structure RunReport where
  results : List (String × String × Metrics)
  failures : List (String × String)
deriving DecidableEq

/-- The per-model loop of benchmark.py `main`: try `run_one`; on success
append to `all_results`; on any exception print the model id with the error
and continue with the remaining models. -/
def mainRun (build : String → Except String Classifier) (samples : List SampleT)
    (runs : ℕ) : List (String × String) → RunReport
  | [] => ⟨[], []⟩
  | (model_id, pretty) :: rest =>
    let tail := mainRun build samples runs rest
    match run_one_of build samples runs model_id with
    | .ok r => ⟨(model_id, pretty, r) :: tail.results, tail.failures⟩
    | .error e => ⟨tail.results, (model_id, e) :: tail.failures⟩

/-- One row of the Markdown summary table per entry of `all_results`:
(pretty name, avg, median, p95, min, max, accuracy). -/
def summaryTable (rep : RunReport) : List (String × ℚ × ℚ × ℚ × ℚ × ℚ × ℚ) :=
  rep.results.map (fun r =>
    (r.2.1, r.2.2.avg_ms, r.2.2.med_ms, r.2.2.p95_ms, r.2.2.min_ms, r.2.2.max_ms, r.2.2.acc))

/-- `text.replace("|", "\\|")`: escape Markdown table delimiters. -/
def escapePipes (s : String) : String :=
  ⟨s.data.flatMap (fun c => if c = '|' then ['\\', '|'] else [c])⟩

/-- The per-sample detail table of `main`: one row per prediction tuple of
each successful model, in evaluation order, with pipes escaped in the text. -/
def detailTable (rep : RunReport) : List (String × String × String × String × ℚ) :=
  rep.results.flatMap (fun r =>
    r.2.2.preds.map (fun p => (r.2.1, escapePipes p.1, p.2.1, p.2.2.1, p.2.2.2)))

/-- benchmark_ui.py `_get_pipeline` on a cache miss: construct the pipeline,
issue the warm-up call inside `try ... except Exception: pass`, and return
the pipeline whatever the warm-up outcome was. -/
def ui_get_pipeline (build : String → Except String Classifier) (model_id : String) :
    Except String Classifier := do
  let clf ← build model_id
  let _warm := clf.run "warmup" 0
  .ok clf

/-- The `MODELS` configuration list of benchmark.py. -/
def MODELS : List (String × String) :=
  [("distilbert-base-uncased-finetuned-sst-2-english", "DistilBERT SST-2 (HF)"),
   ("textattack/distilbert-base-uncased-SST-2", "TextAttack DistilBERT SST-2"),
   ("textattack/albert-base-v2-SST-2", "TextAttack ALBERT v2 SST-2")]

/-- The fixed 8-sample gold set `SAMPLES` of benchmark.py. -/
def SAMPLES : List SampleT :=
  [⟨"I absolutely love this!", "positive"⟩,
   ⟨"This is the best thing ever.", "positive"⟩,
   ⟨"Not bad at all, pretty good.", "positive"⟩,
   ⟨"I hated the experience.", "negative"⟩,
   ⟨"This is terrible and disappointing.", "negative"⟩,
   ⟨"I wouldn\x27t recommend it.", "negative"⟩,
   ⟨"It\x27s okay, nothing special.", "negative"⟩,
   ⟨"I am pleasantly surprised.", "positive"⟩]

/-- `RUNS_PER_SAMPLE = 3` in benchmark.py. -/
def RUNS_PER_SAMPLE : ℕ := 3

/-- Gold label of a sample text of `SAMPLES` (used to build test classifiers
for concrete runs). -/
def expectedOf (t : String) : String :=
  ((SAMPLES.find? (fun s => s.text = t)).map (fun s => s.expected)).getD "positive"

/-- Swap the two canonical labels (used to build a half-wrong classifier). -/
def flipLabel (l : String) : String := if l = "positive" then "negative" else "positive"

/-- A classifier that always answers the gold label of the queried text with
confidence 1 and takes 1 ms per call. -/
def clfAllCorrect : Classifier :=
  ⟨fun t _ => .ok ⟨some (expectedOf t), 1⟩, fun _ _ => 1⟩

/-- The texts of the first four gold samples. -/
def firstFourTexts : List String := (SAMPLES.take 4).map (fun s => s.text)

/-- A classifier that answers the gold label on the first four sample texts
and the opposite label elsewhere. -/
def clfHalf : Classifier :=
  ⟨fun t _ => .ok ⟨some (if t ∈ firstFourTexts then expectedOf t else flipLabel (expectedOf t)), 9 / 10⟩,
   fun _ _ => 2⟩

/-- A classifier whose warm-up call raises while every other call succeeds. -/
def clfWarmupFail : Classifier :=
  ⟨fun t _ => if t = "warmup" then .error "boom" else .ok ⟨some "POSITIVE", 1⟩,
   fun _ _ => 1⟩

/-- A trivial classifier: always `{"label": "POSITIVE", "score": 1.0}`, and
every timed call measures 0 ms. -/
def clfTriv : Classifier := ⟨fun _ _ => .ok ⟨some "POSITIVE", 1⟩, fun _ _ => 0⟩

/-- A pipeline constructor that always yields the given classifier. -/
def buildOf (c : Classifier) : String → Except String Classifier := fun _ => .ok c

/-- A pipeline constructor that raises for one model id and yields `c`
otherwise (used to exercise failure isolation on a concrete run). -/
def buildFailOn (bad : String) (e : String) (c : Classifier) :
    String → Except String Classifier :=
  fun model_id => if model_id = bad then .error e else .ok c

/-- A pipeline constructor for a two-model run in which the model "bad" has a
failing warm-up call and the model "ok" behaves trivially. -/
def buildWB : String → Except String Classifier :=
  fun model_id => if model_id = "bad" then .ok clfWarmupFail else .ok clfTriv

/-- The prediction list `run_one clfTriv` produces on the gold set. -/
def predsTriv8 : List (String × String × String × ℚ) :=
  SAMPLES.map (fun s => (s.text, s.expected, "positive", 1))

/-- A one-sample gold set used by witnesses. -/
def sampleA : SampleT := ⟨"good", "positive"⟩

/-- The metrics value `run_one clfTriv [sampleA] 1` evaluates to. -/
def mTriv : Metrics :=
  { avg_ms := 0, min_ms := 0, max_ms := 0, med_ms := 0, p95_ms := 0,
    acc := 1, preds := [("good", "positive", "positive", 1)],
    num_samples := 1, runs_per_sample := 1 }

/-! ## Character and string lemmas -/

theorem char_toNat_ofNat_valid (n : ℕ) (h : n.isValidChar) : (Char.ofNat n).toNat = n := by
  simp only [Char.ofNat, dif_pos h]
  rfl

theorem char_toLower_toNat (c : Char) (h : c.toNat ≥ 65 ∧ c.toNat ≤ 90) :
    c.toLower.toNat = c.toNat + 32 := by
  unfold Char.toLower
  rw [if_pos h]
  exact char_toNat_ofNat_valid _ (Or.inl (by omega))

theorem char_toLower_eq_self (c : Char) (h : ¬(c.toNat ≥ 65 ∧ c.toNat ≤ 90)) :
    c.toLower = c := by
  unfold Char.toLower
  rw [if_neg h]

theorem char_toLower_toLower (c : Char) : c.toLower.toLower = c.toLower := by
  by_cases h : c.toNat ≥ 65 ∧ c.toNat ≤ 90
  · have h2 : c.toLower.toNat = c.toNat + 32 := char_toLower_toNat c h
    exact char_toLower_eq_self _ (by omega)
  · rw [char_toLower_eq_self c h]
    exact char_toLower_eq_self c h

theorem pyIsSpace_toLower (c : Char) : pyIsSpace c.toLower = pyIsSpace c := by
  by_cases h : c.toNat ≥ 65 ∧ c.toNat ≤ 90
  · have h2 : c.toLower.toNat = c.toNat + 32 := char_toLower_toNat c h
    simp only [pyIsSpace, pyWhitespace]
    rw [decide_eq_decide]
    constructor
    · intro hmem
      simp only [List.mem_cons, List.not_mem_nil, or_false] at hmem
      omega
    · intro hmem
      simp only [List.mem_cons, List.not_mem_nil, or_false] at hmem
      omega
  · rw [char_toLower_eq_self c h]

theorem dropWhile_dropWhile (p : Char → Bool) (l : List Char) :
    (l.dropWhile p).dropWhile p = l.dropWhile p := by
  cases h : l.dropWhile p with
  | nil => simp
  | cons a as =>
    have ha : p a = false := by
      have hne : l.dropWhile p ≠ [] := by simp [h]
      have := List.head_dropWhile_not p l hne
      simpa [h] using this
    simp [List.dropWhile_cons, ha]

theorem head_of_prefix {α : Type _} {a : α} {t l : List α} (h : (a :: t) <+: l) :
    ∃ r, l = a :: r := by
  obtain ⟨r, hr⟩ := h
  exact ⟨t ++ r, by simpa using hr.symm⟩

theorem pyStrip_idem (l : List Char) : pyStrip (pyStrip l) = pyStrip l := by
  unfold pyStrip
  set m := l.dropWhile pyIsSpace with hm
  set q := m.reverse.dropWhile pyIsSpace with hq
  have h1 : q.reverse.dropWhile pyIsSpace = q.reverse := by
    cases hq2 : q.reverse with
    | nil => simp
    | cons a as =>
      have hpre : q.reverse <+: m := by
        have hsuf : q <:+ m.reverse := by
          rw [hq]
          exact List.dropWhile_suffix _
        rw [← List.reverse_reverse m]
        exact List.reverse_prefix.mpr hsuf
      rw [hq2] at hpre
      obtain ⟨r, hr⟩ := head_of_prefix hpre
      have hmr : l.dropWhile pyIsSpace = a :: r := by rw [← hm, hr]
      have hne : l.dropWhile pyIsSpace ≠ [] := by simp [hmr]
      have ha : pyIsSpace a = false := by
        have := List.head_dropWhile_not pyIsSpace l hne
        simpa [hmr] using this
      simp [List.dropWhile_cons, ha]
  rw [h1, List.reverse_reverse]
  have h2 : q.dropWhile pyIsSpace = q := by
    rw [hq]
    exact dropWhile_dropWhile _ _
  rw [h2]

theorem pyLower_idem (l : List Char) : pyLower (pyLower l) = pyLower l := by
  simp only [pyLower, List.map_map, Function.comp_def, char_toLower_toLower]

theorem pyStrip_pyLower (l : List Char) : pyStrip (pyLower l) = pyLower (pyStrip l) := by
  have hpf : (pyIsSpace ∘ Char.toLower) = pyIsSpace := by
    funext c
    simpa [Function.comp] using pyIsSpace_toLower c
  unfold pyStrip pyLower
  rw [List.dropWhile_map, hpf, ← List.map_reverse, List.dropWhile_map, hpf, List.map_reverse]

/-! ## The label normalizers (claims C1 and C10) -/

theorem normalize_label_some (s : String) :
    normalize_label (some s) =
      (if (⟨pyLower (pyStrip s.data)⟩ : String) ∈ positiveVariants then "positive"
       else if (⟨pyLower (pyStrip s.data)⟩ : String) ∈ negativeVariants then "negative"
       else if (⟨pyLower (pyStrip s.data)⟩ : String) = "neutral" then "negative"
       else (⟨pyLower (pyStrip s.data)⟩ : String)) := rfl

theorem ui_normalize_some (x : Option String) :
    ui_normalize x =
      (if (⟨pyLower (pyStrip (x.getD "").data)⟩ : String) ∈ positiveVariants then "positive"
       else "negative") := by
  unfold ui_normalize
  by_cases h1 : (⟨pyLower (pyStrip (x.getD "").data)⟩ : String) ∈ positiveVariants
  · rw [if_pos h1, if_pos h1]
  · rw [if_neg h1, if_neg h1]
    by_cases h2 : (⟨pyLower (pyStrip (x.getD "").data)⟩ : String) ∈ negativeVariants
    · rw [if_pos h2]
    · rw [if_neg h2]

/-- Claim C1, counterexample.  The claim predicts `normalize_label("") =
"unknown"` ("a null or empty input returns unknown") and that any other
non-empty string comes back "lowercased and otherwise unchanged"; in the code
only `None` maps to "unknown" — the empty string falls through to the
pass-through branch and comes back as `""`, the pass-through is also
whitespace-trimmed (`" FOO "` becomes `"foo"`, not `" foo "`), and
benchmark_ui's `_normalize` maps unrecognized strings to "negative" instead
of passing them through. -/
theorem normalize_label_claim_counterexample :
    normalize_label (some "") = "" ∧
    normalize_label (some "") ≠ "unknown" ∧
    normalize_label (some " FOO ") = "foo" ∧
    normalize_label (some " FOO ") ≠ " foo " ∧
    ui_normalize (some "surprising") = "negative" ∧
    ui_normalize (some "surprising") ≠ "surprising" := by
  refine ⟨by decide, by decide, by decide, by decide, by decide, by decide⟩

/-- Claim C1, amended.  benchmark.py `normalize_label`: a `None` input returns
"unknown"; writing `t` for the stripped, lowercased input, any variant with
`t` in \x7b"positive","pos","label_1","1"\x7d maps to "positive", any variant
with `t` in \x7b"negative","neg","label_0","0"\x7d maps to "negative",
"neutral" maps to "negative", and every other input (including the empty
string) is returned as its trimmed lowercased form `t`.  benchmark_ui.py
`_normalize` agrees on the positive table but sends every other value,
`None` and the empty string included, to "negative". -/
theorem normalize_label_amended_spec (s : String) :
    normalize_label none = "unknown" ∧
    ((⟨pyLower (pyStrip s.data)⟩ : String) ∈ positiveVariants →
      normalize_label (some s) = "positive") ∧
    ((⟨pyLower (pyStrip s.data)⟩ : String) ∈ negativeVariants →
      normalize_label (some s) = "negative") ∧
    ((⟨pyLower (pyStrip s.data)⟩ : String) = "neutral" →
      normalize_label (some s) = "negative") ∧
    ((⟨pyLower (pyStrip s.data)⟩ : String) ∉ positiveVariants →
     (⟨pyLower (pyStrip s.data)⟩ : String) ∉ negativeVariants →
     (⟨pyLower (pyStrip s.data)⟩ : String) ≠ "neutral" →
      normalize_label (some s) = (⟨pyLower (pyStrip s.data)⟩ : String)) ∧
    ((⟨pyLower (pyStrip s.data)⟩ : String) ∈ positiveVariants →
      ui_normalize (some s) = "positive") ∧
    ((⟨pyLower (pyStrip s.data)⟩ : String) ∉ positiveVariants →
      ui_normalize (some s) = "negative") ∧
    ui_normalize none = "negative" := by
  refine ⟨by decide, ?_, ?_, ?_, ?_, ?_, ?_, by decide⟩
  · intro h1
    rw [normalize_label_some, if_pos h1]
  · intro h2
    have h1 : (⟨pyLower (pyStrip s.data)⟩ : String) ∉ positiveVariants := by
      simp only [negativeVariants, List.mem_cons, List.not_mem_nil, or_false] at h2
      rcases h2 with h | h | h | h <;> rw [h] <;> decide
    rw [normalize_label_some, if_neg h1, if_pos h2]
  · intro h3
    have h1 : (⟨pyLower (pyStrip s.data)⟩ : String) ∉ positiveVariants := by
      rw [h3]; decide
    have h2 : (⟨pyLower (pyStrip s.data)⟩ : String) ∉ negativeVariants := by
      rw [h3]; decide
    rw [normalize_label_some, if_neg h1, if_neg h2, if_pos h3]
  · intro h1 h2 h3
    rw [normalize_label_some, if_neg h1, if_neg h2, if_neg h3]
  · intro h1
    rw [ui_normalize_some]
    simp only [Option.getD_some]
    rw [if_pos h1]
  · intro h1
    rw [ui_normalize_some]
    simp only [Option.getD_some]
    rw [if_neg h1]

/-- Claim C1 witness: the amended characterization applied to concrete label
variants of every branch. -/
theorem normalize_label_amended_witness :
    normalize_label (some " LABEL_1 ") = "positive" ∧
    normalize_label (some "Neg") = "negative" ∧
    normalize_label (some " NEUTRAL") = "negative" ∧
    normalize_label (some "Mixed Feeling") = "mixed feeling" ∧
    ui_normalize (some "POS") = "positive" ∧
    ui_normalize (some "Mixed") = "negative" :=
  ⟨(normalize_label_amended_spec " LABEL_1 ").2.1 (by decide),
   (normalize_label_amended_spec "Neg").2.2.1 (by decide),
   (normalize_label_amended_spec " NEUTRAL").2.2.2.1 (by decide),
   (normalize_label_amended_spec "Mixed Feeling").2.2.2.2.1 (by decide) (by decide) (by decide),
   (normalize_label_amended_spec "POS").2.2.2.2.2.1 (by decide),
   (normalize_label_amended_spec "Mixed").2.2.2.2.2.2.1 (by decide)⟩

/-- Claim C10: `normalize_label` is idempotent — renormalizing any of its
outputs (for any input, `None` included) is the identity — and every string
it returns is already whitespace-trimmed and lowercase. -/
theorem normalize_label_idempotent (x : Option String) :
    normalize_label (some (normalize_label x)) = normalize_label x ∧
    pyStrip (normalize_label x).data = (normalize_label x).data ∧
    pyLower (normalize_label x).data = (normalize_label x).data := by
  match x with
  | none => exact ⟨by decide, by decide, by decide⟩
  | some s =>
    by_cases h1 : (⟨pyLower (pyStrip s.data)⟩ : String) ∈ positiveVariants
    · have hv : normalize_label (some s) = "positive" := by
        rw [normalize_label_some, if_pos h1]
      rw [hv]
      exact ⟨by decide, by decide, by decide⟩
    · by_cases h2 : (⟨pyLower (pyStrip s.data)⟩ : String) ∈ negativeVariants
      · have hv : normalize_label (some s) = "negative" := by
          rw [normalize_label_some, if_neg h1, if_pos h2]
        rw [hv]
        exact ⟨by decide, by decide, by decide⟩
      · by_cases h3 : (⟨pyLower (pyStrip s.data)⟩ : String) = "neutral"
        · have hv : normalize_label (some s) = "negative" := by
            rw [normalize_label_some, if_neg h1, if_neg h2, if_pos h3]
          rw [hv]
          exact ⟨by decide, by decide, by decide⟩
        · have hv : normalize_label (some s) = ⟨pyLower (pyStrip s.data)⟩ := by
            rw [normalize_label_some, if_neg h1, if_neg h2, if_neg h3]
          rw [hv]
          have hstrip : pyStrip (pyLower (pyStrip s.data)) = pyLower (pyStrip s.data) := by
            rw [pyStrip_pyLower, pyStrip_idem]
          have hlow : pyLower (pyLower (pyStrip s.data)) = pyLower (pyStrip s.data) :=
            pyLower_idem _
          refine ⟨?_, hstrip, hlow⟩
          have ht2 : (⟨pyLower (pyStrip (⟨pyLower (pyStrip s.data)⟩ : String).data)⟩ : String)
              = (⟨pyLower (pyStrip s.data)⟩ : String) := by
            show (⟨pyLower (pyStrip (pyLower (pyStrip s.data)))⟩ : String) = _
            rw [hstrip, hlow]
          rw [normalize_label_some, ht2, if_neg h1, if_neg h2, if_neg h3]

/-! ## Statistics helpers (claims C3 and C5) -/

/-- Claim C3, counterexample.  The claim says every statistics function used
by the harness returns 0.0 on an empty input sequence rather than raising; in
the code `mean`, `min`, `max` and `median` are the Python builtins and
`statistics` functions, which raise on empty input — only `p95` is guarded. -/
theorem stats_empty_counterexample :
    (pyMean []).isOk = false ∧ (pyMin []).isOk = false ∧
    (pyMax []).isOk = false ∧ (pyMedian []).isOk = false := by
  refine ⟨by decide, by decide, by decide, by decide⟩

/-- Claim C3, amended.  Of the statistics functions used by `run_one`, only
`p95` returns the defined zero value 0.0 on an empty input sequence; `mean`,
`min`, `max` and `median` raise (`StatisticsError` / `ValueError`) on empty
input.  (In the harness the latency list is never empty: the gold set has 8
samples and 3 timed repeats each.) -/
theorem stats_empty_amended :
    p95 [] = 0 ∧
    pyMean [] = .error "StatisticsError: mean requires at least one data point" ∧
    pyMin [] = .error "ValueError: min arg is an empty sequence" ∧
    pyMax [] = .error "ValueError: max arg is an empty sequence" ∧
    pyMedian [] = .error "StatisticsError: no median for empty data" := by
  refine ⟨by decide, by decide, by decide, by decide, by decide⟩

/-- Claim C5: `p95` of the empty sequence is 0.0; `p95 [x] = x`; every
non-empty sequence is sorted ascending and indexed at
`int(0.95 * (count - 1))`; and on a strictly increasing sequence of 20 values
the zero-based index 18 is selected. -/
theorem p95_spec :
    p95 [] = 0 ∧
    (∀ x : ℚ, p95 [x] = x) ∧
    (∀ values : List ℚ, values ≠ [] →
      p95 values = (pySorted values).getD (95 * (values.length - 1) / 100) 0) ∧
    (∀ values : List ℚ, values.length = 20 → List.Sorted (· < ·) values →
      p95 values = values.getD 18 0) := by
  refine ⟨by decide, ?_, ?_, ?_⟩
  · intro x
    unfold p95
    simp [pySorted, List.mergeSort_singleton]
  · intro values h
    unfold p95
    rw [if_neg (fun hc => h (List.length_eq_zero.mp hc))]
  · intro values hlen hsort
    unfold p95
    rw [if_neg (by rw [hlen]; omega)]
    have hs : pySorted values = values := by
      unfold pySorted
      exact List.mergeSort_eq_self hsort.le_of_lt
    rw [hs, hlen]

/-- Claim C5 witness: the three quantified parts of `p95_spec` applied to a
singleton, a two-element list, and the strictly increasing sequence
0, 1, ..., 19. -/
theorem p95_spec_witness :
    p95 [(7:ℚ)] = 7 ∧
    p95 [(3:ℚ), 1] = (pySorted [(3:ℚ), 1]).getD (95 * (([(3:ℚ), 1] : List ℚ).length - 1) / 100) 0 ∧
    p95 [(0:ℚ), 1, 2, 3, 4, 5, 6, 7, 8, 9, 10, 11, 12, 13, 14, 15, 16, 17, 18, 19] =
      ([(0:ℚ), 1, 2, 3, 4, 5, 6, 7, 8, 9, 10, 11, 12, 13, 14, 15, 16, 17, 18, 19] : List ℚ).getD 18 0 :=
  ⟨p95_spec.2.1 7,
   p95_spec.2.2.1 [3, 1] (by decide),
   p95_spec.2.2.2 [0, 1, 2, 3, 4, 5, 6, 7, 8, 9, 10, 11, 12, 13, 14, 15, 16, 17, 18, 19]
     (by decide) (by with_unfolding_all decide)⟩

/-! ## The evaluation loops of run_one -/

theorem repeatCalls_ok (c : Classifier) (text : String) :
    ∀ (n : ℕ) (lats : List ℚ) (outOpt : Option RawPred),
      repeatCalls c text n = .ok (lats, outOpt) →
      lats = (List.range n).map (c.dur text) ∧
      ∀ m : ℕ, n = m + 1 → ∃ o, c.run text m = .ok o ∧ outOpt = some o := by
  intro n
  induction n with
  | zero =>
    intro lats outOpt h
    simp only [repeatCalls] at h
    cases h
    exact ⟨by simp, fun m hm => by omega⟩
  | succ k ih =>
    intro lats outOpt h
    simp only [repeatCalls] at h
    cases hk : repeatCalls c text k with
    | error e =>
      rw [hk] at h
      simp [Bind.bind, Except.bind] at h
    | ok p =>
      obtain ⟨lats0, out0⟩ := p
      rw [hk] at h
      cases hr : c.run text k with
      | error e =>
        rw [hr] at h
        simp [Bind.bind, Except.bind] at h
      | ok o =>
        rw [hr] at h
        simp only [Bind.bind, Except.bind, Except.ok.injEq, Prod.mk.injEq] at h
        obtain ⟨h1, h2⟩ := h
        obtain ⟨hl, _⟩ := ih lats0 out0 hk
        constructor
        · rw [← h1, hl, List.range_succ, List.map_append]
          simp
        · intro m hm
          have hmk : m = k := by omega
          subst hmk
          exact ⟨o, hr, h2.symm⟩

theorem sampleLoop_ok (c : Classifier) (r : ℕ) :
    ∀ (samples : List SampleT) (prev : Option RawPred) (lats : List ℚ) (correct : ℕ)
      (preds : List (String × String × String × ℚ)),
      sampleLoop c (r + 1) samples prev = .ok (lats, correct, preds) →
      lats = samples.flatMap (fun s => (List.range (r + 1)).map (c.dur s.text)) ∧
      preds.map (fun p => (p.1, p.2.1)) = samples.map (fun s => (s.text, s.expected)) ∧
      (∀ (i : ℕ) (hi : i < samples.length),
        ∃ o, c.run (samples.get ⟨i, hi⟩).text r = .ok o ∧
          preds[i]? = some ((samples.get ⟨i, hi⟩).text, (samples.get ⟨i, hi⟩).expected,
                            normalize_label o.label, o.score)) ∧
      correct = preds.countP (fun p => decide (p.2.2.1 = p.2.1)) := by
  intro samples
  induction samples with
  | nil =>
    intro prev lats correct preds h
    simp only [sampleLoop] at h
    cases h
    refine ⟨by simp, by simp, fun i hi => absurd hi (by simp), by simp⟩
  | cons s rest ih =>
    intro prev lats correct preds h
    simp only [sampleLoop] at h
    cases hrc : repeatCalls c s.text (r + 1) with
    | error e =>
      rw [hrc] at h
      simp [Bind.bind, Except.bind] at h
    | ok p =>
      obtain ⟨lats_s, outOpt⟩ := p
      rw [hrc] at h
      obtain ⟨hl_s, hlast⟩ := repeatCalls_ok c s.text (r + 1) lats_s outOpt hrc
      obtain ⟨o, ho, hout⟩ := hlast r rfl
      subst hout
      simp only [Bind.bind, Except.bind] at h
      cases hrest : sampleLoop c (r + 1) rest (some o) with
      | error e =>
        rw [hrest] at h
        simp [Bind.bind, Except.bind] at h
      | ok q =>
        obtain ⟨latsR, correctR, predsR⟩ := q
        rw [hrest] at h
        simp only [Bind.bind, Except.bind, Except.ok.injEq, Prod.mk.injEq] at h
        obtain ⟨h1, h2, h3⟩ := h
        obtain ⟨ihl, ihm, ihp, ihc⟩ := ih (some o) latsR correctR predsR hrest
        refine ⟨?_, ?_, ?_, ?_⟩
        · rw [← h1, hl_s, ihl]
          simp [List.flatMap_cons]
        · rw [← h3]
          simp only [List.map_cons, ihm]
        · intro i hi
          match i with
          | 0 =>
            refine ⟨o, ho, ?_⟩
            rw [← h3]
            simp
          | Nat.succ j =>
            have hj : j < rest.length := by
              simpa [Nat.succ_lt_succ_iff] using hi
            obtain ⟨o2, ho2, hp2⟩ := ihp j hj
            refine ⟨o2, ho2, ?_⟩
            rw [← h3]
            simpa using hp2
        · rw [← h2, ← h3, List.countP_cons, ihc]
          by_cases hq : normalize_label o.label = s.expected
          · simp [hq]
            omega
          · simp [hq]

theorem run_one_ok (c : Classifier) (samples : List SampleT) (runs : ℕ) (m : Metrics)
    (h : run_one c samples runs = .ok m) :
    ∃ lats correct preds,
      sampleLoop c runs samples none = .ok (lats, correct, preds) ∧
      m.preds = preds ∧
      m.acc = (correct : ℚ) / (samples.length : ℚ) ∧
      m.num_samples = samples.length ∧
      m.runs_per_sample = runs ∧
      m.p95_ms = p95 lats ∧
      samples.length ≠ 0 := by
  unfold run_one at h
  cases hw : c.run "warmup" 0 with
  | error e =>
    rw [hw] at h
    simp [Bind.bind, Except.bind] at h
  | ok w =>
    rw [hw] at h
    simp only [Bind.bind, Except.bind] at h
    cases hs : sampleLoop c runs samples none with
    | error e =>
      rw [hs] at h
      simp [Except.bind] at h
    | ok trip =>
      obtain ⟨lats, correct, preds⟩ := trip
      rw [hs] at h
      simp only [Except.bind] at h
      cases hmean : pyMean lats with
      | error e =>
        rw [hmean] at h
        simp [Except.bind] at h
      | ok avg =>
        rw [hmean] at h
        simp only [Except.bind] at h
        cases hmin : pyMin lats with
        | error e =>
          rw [hmin] at h
          simp [Except.bind] at h
        | ok mn =>
          rw [hmin] at h
          simp only [Except.bind] at h
          cases hmax : pyMax lats with
          | error e =>
            rw [hmax] at h
            simp [Except.bind] at h
          | ok mx =>
            rw [hmax] at h
            simp only [Except.bind] at h
            cases hmed : pyMedian lats with
            | error e =>
              rw [hmed] at h
              simp [Except.bind] at h
            | ok md =>
              rw [hmed] at h
              simp only [Except.bind] at h
              by_cases hn : samples.length = 0
              · rw [if_pos hn] at h
                simp at h
              · rw [if_neg hn] at h
                simp only [Except.ok.injEq] at h
                refine ⟨lats, correct, preds, rfl, ?_, ?_, ?_, ?_, ?_, hn⟩ <;> rw [← h]

/-! ## Failure isolation of main (claims C2 and C4) -/

/-- Claim C2: if evaluating one model raises (at pipeline construction or any
inference call) the per-model `try/except` of `main` catches it at the
granularity of that whole model — the model id appears with its error in the
failure log, the model contributes no row to the summary table (and hence
none to the detail table, which iterates over the same `all_results`), and
every model whose evaluation succeeded contributes exactly one summary row,
in evaluation order.  `mainRun` is a total function of the model list, so no
exception propagates out of the run. -/
theorem main_failure_isolation (build : String → Except String Classifier)
    (samples : List SampleT) (runs : ℕ) (models : List (String × String)) :
    ((mainRun build samples runs models).results.map (fun entry => (entry.1, entry.2.1)) =
      models.filter (fun mp => (run_one_of build samples runs mp.1).isOk)) ∧
    ((mainRun build samples runs models).failures =
      models.filterMap (fun mp =>
        match run_one_of build samples runs mp.1 with
        | .error e => some (mp.1, e)
        | .ok _ => none)) ∧
    ((summaryTable (mainRun build samples runs models)).length =
      (models.filter (fun mp => (run_one_of build samples runs mp.1).isOk)).length) := by
  induction models with
  | nil => exact ⟨rfl, rfl, rfl⟩
  | cons mp rest ih =>
    obtain ⟨mid, pretty⟩ := mp
    obtain ⟨ih1, ih2, ih3⟩ := ih
    cases hr : run_one_of build samples runs mid with
    | ok res =>
      refine ⟨?_, ?_, ?_⟩
      · simp only [mainRun, hr, List.map_cons, List.filter_cons]
        simp [Except.isOk, Except.toBool, hr, ih1]
      · simp only [mainRun, hr, List.filterMap_cons]
        simp [hr, ih2]
      · simp only [mainRun, hr, summaryTable, List.filter_cons]
        simp [Except.isOk, Except.toBool, hr]
        simpa [summaryTable] using ih3
    | error e =>
      refine ⟨?_, ?_, ?_⟩
      · simp only [mainRun, hr, List.filter_cons]
        simp [Except.isOk, Except.toBool, hr, ih1]
      · simp only [mainRun, hr, List.filterMap_cons]
        simp [hr, ih2]
      · simp only [mainRun, hr, summaryTable, List.filter_cons]
        simp [Except.isOk, Except.toBool, hr]
        simpa [summaryTable] using ih3

/-- Claim C4, counterexample.  The claim says a warm-up failure is swallowed;
in benchmark.py the warm-up call `_ = clf("warmup")` is not guarded, so a
classifier whose warm-up call raises makes the whole `run_one` for that model
raise (the model is then skipped entirely by `main`, instead of being
benchmarked with the warm-up failure ignored). -/
theorem warmup_not_swallowed_counterexample :
    run_one clfWarmupFail SAMPLES RUNS_PER_SAMPLE = .error "boom" := by decide

/-- Claim C4, amended.  Exactly one untimed warm-up call per model is issued
before measurement, but in benchmark.py its failure is not swallowed at the
warm-up site: it propagates out of `run_one` with the warm-up error, and the
per-model handler of `main` then records the model as failed while the run
continues with the remaining models (shown here on a concrete two-model run).
Only benchmark_ui.py's `_get_pipeline` swallows the warm-up failure: it
returns the constructed pipeline whatever the warm-up outcome. -/
theorem warmup_amended :
    (∀ (c : Classifier) (samples : List SampleT) (runs : ℕ) (e : String),
      c.run "warmup" 0 = .error e → run_one c samples runs = .error e) ∧
    (∀ (build : String → Except String Classifier) (model_id : String) (c : Classifier),
      build model_id = .ok c → ui_get_pipeline build model_id = .ok c) ∧
    (mainRun buildWB [sampleA] 1 [("bad", "Bad"), ("ok", "Ok")]).failures = [("bad", "boom")] ∧
    (mainRun buildWB [sampleA] 1 [("bad", "Bad"), ("ok", "Ok")]).results.map (fun entry => entry.1)
      = ["ok"] := by
  refine ⟨?_, ?_, ?_, ?_⟩
  · intro c samples runs e he
    unfold run_one
    rw [he]
    rfl
  · intro build model_id c hb
    unfold ui_get_pipeline
    rw [hb]
    rfl
  · with_unfolding_all decide
  · with_unfolding_all decide

/-- Claim C4 witness: the two implications of `warmup_amended` applied to the
classifier with the failing warm-up call. -/
theorem warmup_amended_witness :
    run_one clfWarmupFail [sampleA] 1 = .error "boom" ∧
    ui_get_pipeline (buildOf clfWarmupFail) "m" = .ok clfWarmupFail :=
  ⟨warmup_amended.1 clfWarmupFail [sampleA] 1 "boom" (by decide),
   warmup_amended.2.1 (buildOf clfWarmupFail) "m" clfWarmupFail rfl⟩

/-! ## Predictions, latency counts and accuracy (claims C6 to C9) -/

/-- Claim C6: for every sample, the prediction recorded in the prediction
list (and used for accuracy) is the normalized output of the last of the
repeated inference calls for that sample — with `runs = r + 1` timed calls
numbered 0, ..., r, the entry for sample i is built from call r on that
sample's text; earlier repeats contribute only timing. -/
theorem last_call_prediction (c : Classifier) (samples : List SampleT) (r : ℕ) (m : Metrics)
    (h : run_one c samples (r + 1) = .ok m) (i : ℕ) (hi : i < samples.length) :
    ∃ o, c.run (samples.get ⟨i, hi⟩).text r = .ok o ∧
      m.preds[i]? = some ((samples.get ⟨i, hi⟩).text, (samples.get ⟨i, hi⟩).expected,
                          normalize_label o.label, o.score) := by
  obtain ⟨lats, correct, preds, hs, hp, hacc, hnum, hruns, hp95, hne⟩ :=
    run_one_ok c samples (r + 1) m h
  obtain ⟨_, _, hpt, _⟩ := sampleLoop_ok c r samples none lats correct preds hs
  rw [hp]
  exact hpt i hi

/-- Claim C6 witness: `last_call_prediction` applied to a concrete one-sample
run of the trivial classifier. -/
theorem last_call_prediction_witness :
    mTriv.preds[0]? = some (sampleA.text, sampleA.expected, normalize_label (some "POSITIVE"), 1) := by
  obtain ⟨o, ho, hp⟩ :=
    last_call_prediction clfTriv [sampleA] 0 mTriv (by with_unfolding_all decide) 0 (by decide)
  have ho2 : o = ⟨some "POSITIVE", 1⟩ := by
    have h2 : Except.ok (ε := String) (⟨some "POSITIVE", 1⟩ : RawPred) = Except.ok o := by
      rw [← ho]
      rfl
    exact (Except.ok.inj h2).symm
  rw [ho2] at hp
  simpa using hp

/-- Claim C7: the latency sequence recorded by the sample loop is exactly the
per-repeat durations of the timed calls, one per (sample, repeat) pair, so
its length is `num_samples * runs_per_sample` (24 for the default 8-sample,
3-repeat configuration); the warm-up call contributes no entry — the list is
exhausted by the durations of the sample texts' timed repeats. -/
theorem latency_count (c : Classifier) (samples : List SampleT) (r : ℕ)
    (lats : List ℚ) (correct : ℕ) (preds : List (String × String × String × ℚ))
    (h : sampleLoop c (r + 1) samples none = .ok (lats, correct, preds)) :
    lats = samples.flatMap (fun s => (List.range (r + 1)).map (c.dur s.text)) ∧
    lats.length = samples.length * (r + 1) ∧
    (samples.length = 8 → r + 1 = RUNS_PER_SAMPLE → lats.length = 24) := by
  obtain ⟨hl, _, _, _⟩ := sampleLoop_ok c r samples none lats correct preds h
  have haux : ∀ l : List SampleT,
      (l.flatMap (fun s => (List.range (r + 1)).map (c.dur s.text))).length = l.length * (r + 1) := by
    intro l
    induction l with
    | nil => simp
    | cons a t iht =>
      simp only [List.flatMap_cons, List.length_append, List.length_map, List.length_range, iht,
        List.length_cons]
      ring
  have hlen : lats.length = samples.length * (r + 1) := by
    rw [hl]
    exact haux samples
  refine ⟨hl, hlen, ?_⟩
  intro h8 h3
  rw [hlen, h8, h3]
  decide

/-- Claim C7 witness: `latency_count` applied to a concrete run of the
trivial classifier over the 8-sample gold set with 3 repeats: 24 recorded
durations. -/
theorem latency_count_witness :
    List.replicate 24 (0:ℚ) = SAMPLES.flatMap (fun s => (List.range 3).map (clfTriv.dur s.text)) ∧
    (List.replicate 24 (0:ℚ)).length = SAMPLES.length * 3 ∧
    (List.replicate 24 (0:ℚ)).length = 24 := by
  have h := latency_count clfTriv SAMPLES 2 (List.replicate 24 0) 4 predsTriv8
    (by with_unfolding_all decide)
  exact ⟨h.1, h.2.1, h.2.2 (by decide) (by decide)⟩

/-- Claim C8: a successful `run_one` records exactly one prediction entry per
sample, and the entries carry the samples' texts and expected labels in
sample order. -/
theorem preds_one_per_sample (c : Classifier) (samples : List SampleT) (r : ℕ) (m : Metrics)
    (h : run_one c samples (r + 1) = .ok m) :
    m.preds.length = samples.length ∧
    m.preds.map (fun p => (p.1, p.2.1)) = samples.map (fun s => (s.text, s.expected)) := by
  obtain ⟨lats, correct, preds, hs, hp, hacc, hnum, hruns, hp95, hne⟩ :=
    run_one_ok c samples (r + 1) m h
  obtain ⟨_, hm, _, _⟩ := sampleLoop_ok c r samples none lats correct preds hs
  rw [hp]
  constructor
  · have h2 := congrArg List.length hm
    simpa using h2
  · exact hm

/-- Claim C8 witness: `preds_one_per_sample` on a concrete one-sample run. -/
theorem preds_one_per_sample_witness :
    mTriv.preds.length = ([sampleA] : List SampleT).length ∧
    mTriv.preds.map (fun p => (p.1, p.2.1)) =
      ([sampleA] : List SampleT).map (fun s => (s.text, s.expected)) :=
  preds_one_per_sample clfTriv [sampleA] 0 mTriv (by with_unfolding_all decide)

/-- Claim C9: the accuracy of a successful `run_one` is the number of
prediction entries whose (normalized, final-call — see `last_call_prediction`)
predicted label equals the expected label, divided by the number of samples;
on the fixed 8-sample gold set, the all-correct classifier scores 1.0 and a
classifier correct on exactly 4 samples scores 0.5. -/
theorem accuracy_spec :
    (∀ (c : Classifier) (samples : List SampleT) (r : ℕ) (m : Metrics),
      run_one c samples (r + 1) = .ok m →
      m.acc = ((m.preds.countP (fun p => decide (p.2.2.1 = p.2.1)) : ℕ) : ℚ) / (m.num_samples : ℚ)) ∧
    (run_one clfAllCorrect SAMPLES RUNS_PER_SAMPLE).map Metrics.acc = .ok 1 ∧
    (run_one clfHalf SAMPLES RUNS_PER_SAMPLE).map Metrics.acc = .ok (1 / 2) := by
  refine ⟨?_, by with_unfolding_all decide, by with_unfolding_all decide⟩
  intro c samples r m h
  obtain ⟨lats, correct, preds, hs, hp, hacc, hnum, hruns, hp95, hne⟩ :=
    run_one_ok c samples (r + 1) m h
  obtain ⟨_, _, _, hc⟩ := sampleLoop_ok c r samples none lats correct preds hs
  rw [hacc, hp, hnum, ← hc]

/-- Claim C9 witness: the accuracy formula applied to a concrete one-sample
run. -/
theorem accuracy_spec_witness :
    mTriv.acc = ((mTriv.preds.countP (fun p => decide (p.2.2.1 = p.2.1)) : ℕ) : ℚ) /
      (mTriv.num_samples : ℚ) :=
  accuracy_spec.1 clfTriv [sampleA] 0 mTriv (by with_unfolding_all decide)
